import Mathlib

/-!
Verification of the baseball-streams CLI (src/main.rs).

The program is embedded shallowly: serde_json values become the inductive
`Json`; the `unwrap`/panic failure mode of the Rust code becomes `Option`
(a `none` result models the whole operation failing with no partial data);
network fetches become explicit oracle functions passed as parameters; the
lines printed to stdout become lists of strings.
-/

/-- Shallow model of a `serde_json::Value`. Numbers are modelled as integers,
which covers every field the program reads numerically (`as_u64`). -/
inductive Json where
  | null
  | bool (b : Bool)
  | num (n : Int)
  | str (s : String)
  | arr (elems : List Json)
  | obj (fields : List (String × Json))

/-- First binding of a key in an object field list (serde maps have unique
keys, so first binding is the binding). -/
def lookupField : List (String × Json) → String → Option Json
  | [], _ => none
  | (k, v) :: rest, key => if k = key then some v else lookupField rest key

/-- `value[key]` for `serde_json::Value`: yields `Null` when the key is
absent or the value is not an object. -/
def Json.get (j : Json) (key : String) : Json :=
  match j with
  | .obj fields => (lookupField fields key).getD .null
  | _ => .null

/-- `Value::as_str`. -/
def Json.asStr : Json → Option String
  | .str s => some s
  | _ => none

/-- `Value::as_array`. -/
def Json.asArray : Json → Option (List Json)
  | .arr xs => some xs
  | _ => none

/-- `Value::as_object`. -/
def Json.asObj : Json → Option (List (String × Json))
  | .obj fs => some fs
  | _ => none

/-- `Value::as_u64`: some iff the value is an integer representable in u64. -/
def Json.asU64 : Json → Option Nat
  | .num n => if 0 ≤ n ∧ n < 2 ^ 64 then some n.toNat else none
  | _ => none

/-- The `Game` struct from main.rs. -/
structure Game where
  title : String
  id : String
deriving DecidableEq

/-- `game["status"]["abstractGameCode"].as_str().unwrap_or("")`
(main.rs line 40). -/
def statusOf (game : Json) : String :=
  (((game.get "status").get "abstractGameCode").asStr).getD ""

/-- The filter closure of `get_schedule` (main.rs lines 39-42):
keep a game iff its abstract game code is neither "F" nor "P". -/
def keepGame (game : Json) : Bool :=
  statusOf game != "F" && statusOf game != "P"

/-- `game["teams"]["home"]["team"]["abbreviation"].as_str()` (line 44). -/
def homeAbbrOf (game : Json) : Option String :=
  ((((game.get "teams").get "home").get "team").get "abbreviation").asStr

/-- `game["teams"]["away"]["team"]["abbreviation"].as_str()` (line 47). -/
def awayAbbrOf (game : Json) : Option String :=
  ((((game.get "teams").get "away").get "team").get "abbreviation").asStr

/-- `game["teams"]["home"]["score"].as_u64().unwrap_or(0)` (line 52). -/
def homeScoreOf (game : Json) : Nat :=
  ((((game.get "teams").get "home").get "score").asU64).getD 0

/-- `game["teams"]["away"]["score"].as_u64().unwrap_or(0)` (line 53). -/
def awayScoreOf (game : Json) : Nat :=
  ((((game.get "teams").get "away").get "score").asU64).getD 0

/-- `game["linescore"].as_object().unwrap_or(default_map)` (lines 55-56). -/
def linescoreOf (game : Json) : List (String × Json) :=
  ((game.get "linescore").asObj).getD []

/-- `linescore.get("currentInningOrdinal").and_then(as_str).unwrap_or("N/A")`
(lines 58-61). -/
def inningOf (game : Json) : String :=
  ((lookupField (linescoreOf game) "currentInningOrdinal").bind Json.asStr).getD "N/A"

/-- `linescore.get("inningHalf").and_then(as_str).unwrap_or("Top")`
(lines 62-65). -/
def inningHalfOf (game : Json) : String :=
  ((lookupField (linescoreOf game) "inningHalf").bind Json.asStr).getD "Top"

/-- `game["teams"]["home"]["team"]["name"].as_str()` (line 72). -/
def homeNameOf (game : Json) : Option String :=
  ((((game.get "teams").get "home").get "team").get "name").asStr

/-- `game["teams"]["away"]["team"]["name"].as_str()` (line 73). -/
def awayNameOf (game : Json) : Option String :=
  ((((game.get "teams").get "away").get "team").get "name").asStr

/-- The body of the `for_each` in `get_schedule` (main.rs lines 43-83):
extract the fields of one qualifying entry and build a `Game`. A `none`
result models the `unwrap` panic on a missing required field. -/
def buildGame (game : Json) : Option Game := do
  let home_team ← homeAbbrOf game
  let away_team ← awayAbbrOf game
  let home_team_score := homeScoreOf game
  let away_team_score := awayScoreOf game
  let inning := inningOf game
  let inning_half := inningHalfOf game
  let inning_char := if inning_half = "Bottom" then "Bottom of" else "Top of"
  let home_team_full_name ← homeNameOf game
  let away_team_full_name ← awayNameOf game
  pure { title := away_team ++ " (" ++ toString away_team_score ++ ") vs " ++
                  home_team ++ " (" ++ toString home_team_score ++ ") | " ++
                  inning_char ++ " " ++ inning,
         id := home_team_full_name ++ " vs " ++ away_team_full_name }

/-- Build the games of one date list in order, failing as a whole if any
entry fails (the pushed prefix is discarded, as a panic discards the vec). -/
def buildGames : List Json → Option (List Game)
  | [] => some []
  | e :: rest => do
    let g ← buildGame e
    let gs ← buildGames rest
    pure (g :: gs)

/-- One iteration of the outer `for_each` over `json["dates"]`
(main.rs lines 34-84): read `date["games"]`, filter, build. -/
def processDate (date : Json) : Option (List Game) := do
  let gs ← (date.get "games").asArray
  buildGames (gs.filter keepGame)

/-- All dates in order; the shared vec is the concatenation. -/
def processDates : List Json → Option (List Game)
  | [] => some []
  | d :: rest => do
    let gs ← processDate d
    let later ← processDates rest
    pure (gs ++ later)

/-- `get_schedule` (main.rs lines 21-87) after the HTTP fetch and JSON parse:
the function of the parsed schedule document. -/
def get_schedule (json : Json) : Option (List Game) := do
  let dates ← (json.get "dates").asArray
  processDates dates

/-- A schedule document of the shape the program reads:
`{"dates": [{"games": [...]}, ...]}`. -/
def mkDate (games : List Json) : Json :=
  Json.obj [("games", Json.arr games)]

def mkSched (dates : List (List Json)) : Json :=
  Json.obj [("dates", Json.arr (dates.map mkDate))]

/-- `m["title"].as_str()` in `get_sources` (main.rs line 102). -/
def titleOf (m : Json) : Option String :=
  (m.get "title").asStr

/-- `m["sources"].as_array()` in `get_sources` (main.rs line 104). -/
def sourcesOf (m : Json) : Option (List Json) :=
  (m.get "sources").asArray

/-- The `for m in matches` loop of `get_sources` (main.rs lines 101-109):
return the sources of the first match whose title equals `id`; when the
loop falls through, return the empty list. -/
def findSources (id : String) : List Json → Option (List Json)
  | [] => some []
  | m :: rest =>
    match titleOf m with
    | none => none
    | some t => if t = id then sourcesOf m else findSources id rest

/-- `get_sources` (main.rs lines 89-110) after the HTTP fetch and JSON
parse: the function of the correlation key and the parsed matches
document. -/
def get_sources (id : String) (json : Json) : Option (List Json) :=
  (json.asArray).bind (findSources id)

/-- The stream URL built in `get_streams` (main.rs lines 121-124). -/
def streamUrl (source_type source_id : String) : String :=
  "https://streamed.su/api/stream/" ++ source_type ++ "/" ++ source_id

/-- The inner `for stream in streams` loop of `get_streams`
(main.rs lines 131-133): the printed embed URLs, in response order. -/
def embedUrls : List Json → Option (List String)
  | [] => some []
  | stream :: rest => do
    let u ← (stream.get "embedUrl").asStr
    let us ← embedUrls rest
    pure (u :: us)

/-- One iteration of the `for source in sources` loop of `get_streams`
(main.rs lines 117-134). `fetch` is the network oracle mapping a URL to
the parsed JSON body it returns. -/
def streamsOfSource (fetch : String → Json) (source : Json) : Option (List String) := do
  let source_id ← (source.get "id").asStr
  let source_type ← (source.get "source").asStr
  let streams ← (fetch (streamUrl source_type source_id)).asArray
  embedUrls streams

/-- All sources in list order. -/
def streamsOfSources (fetch : String → Json) : List Json → Option (List String)
  | [] => some []
  | s :: rest => do
    let us ← streamsOfSource fetch s
    let later ← streamsOfSources fetch rest
    pure (us ++ later)

/-- `get_streams` (main.rs lines 112-137): the complete sequence of lines
printed to stdout on a successful run — the three header lines
(lines 113-115) followed by every embed URL. -/
def get_streams (fetch : String → Json) (sources : List Json) : Option (List String) :=
  (streamsOfSources fetch sources).map (fun out => ["", "Streams: ", ""] ++ out)

/-- The schedule-acquisition step of `main` (main.rs lines 142-149).
`fetch` abstracts `get_schedule` composed with the HTTP layer for a date
string; the result pairs the final game list (`none` = propagated error)
with the trace of dates fetched, in order. -/
def main_games (fetch : String → Option (List Game)) (today yesterday : String) :
    Option (List Game) × List String :=
  match fetch today with
  | none => (none, [today])
  | some games =>
    if games.length = 0 then (fetch yesterday, [today, yesterday])
    else (some games, [today])

/-- Decimal digit characters of a positive natural, most significant
first; the helper used to state claims about numeric input strings. -/
def decDigits : Nat → List Char
  | 0 => []
  | n + 1 => decDigits ((n + 1) / 10) ++ [Char.ofNat ((n + 1) % 10 + 48)]

/-- The canonical decimal string of a natural number. -/
def decRep (n : Nat) : String :=
  if n = 0 then "0" else String.mk (decDigits n)

/-- `str::trim` (main.rs line 162), restricted to ASCII whitespace. -/
def rustTrim (s : String) : String :=
  String.mk (((s.data.dropWhile Char.isWhitespace).reverse.dropWhile Char.isWhitespace).reverse)

/-- Value of a digit string, most significant first. -/
def digitsVal (ds : List Char) : Nat :=
  ds.foldl (fun a c => a * 10 + (c.toNat - 48)) 0

/-- `str::parse::<i32>` (main.rs line 162): an optional sign followed by
one or more ASCII digits, the value required to fit in a signed 32-bit
integer; anything else is a parse error. -/
def parseI32 (s : String) : Option Int :=
  let cs := s.data
  let sign : Int := if cs.head? = some '-' then -1 else 1
  let ds : List Char :=
    if cs.head? = some '-' ∨ cs.head? = some '+' then cs.tail else cs
  if ds ≠ [] ∧ ds.all Char.isDigit then
    let v : Int := sign * (digitsVal ds : Int)
    if -(2 ^ 31) ≤ v ∧ v ≤ 2 ^ 31 - 1 then some v else none
  else none

/-- `games.len() as i32` (main.rs line 163): the two's-complement
reinterpretation of the low 32 bits of the length. -/
def lenAsI32 (n : Nat) : Int :=
  if n % 2 ^ 32 < 2 ^ 31 then ((n % 2 ^ 32 : Nat) : Int)
  else ((n % 2 ^ 32 : Nat) : Int) - 2 ^ 32

/-- The selection step of `main` (main.rs lines 162-168): parse the
trimmed input line as an i32, accept it iff it is positive and at most
the game count, and return the zero-based index of the selected game;
`none` is the invalid-selection outcome. -/
def select_game (games : List Game) (input : String) : Option Nat :=
  match parseI32 (rustTrim input) with
  | none => none
  | some num =>
    if 0 < num ∧ num ≤ lenAsI32 games.length then some (num - 1).toNat else none

/-- The schedule entry of the end-to-end scenario in the specification:
away NYY (New York Yankees) score 3, home BOS (Boston Red Sox) score 2,
bottom of the 7th, live. -/
def c1Game : Json := Json.obj [
  ("status", Json.obj [("abstractGameCode", Json.str "L")]),
  ("teams", Json.obj [
    ("away", Json.obj [
      ("team", Json.obj [("abbreviation", Json.str "NYY"),
                         ("name", Json.str "New York Yankees")]),
      ("score", Json.num 3)]),
    ("home", Json.obj [
      ("team", Json.obj [("abbreviation", Json.str "BOS"),
                         ("name", Json.str "Boston Red Sox")]),
      ("score", Json.num 2)])]),
  ("linescore", Json.obj [("currentInningOrdinal", Json.str "7th"),
                          ("inningHalf", Json.str "Bottom")])]

def c1Sched : Json := mkSched [[c1Game]]

/-- The `Game` the program builds from `c1Game`. -/
def c1ExpectedGame : Game :=
  { title := "NYY (3) vs BOS (2) | Bottom of 7th",
    id := "Boston Red Sox vs New York Yankees" }

/-- A schedule entry whose abstract game code is literally "F": complete,
well-formed, and skipped by the program. -/
def c2Game : Json := Json.obj [
  ("status", Json.obj [("abstractGameCode", Json.str "F")]),
  ("teams", Json.obj [
    ("away", Json.obj [
      ("team", Json.obj [("abbreviation", Json.str "SF"),
                         ("name", Json.str "San Francisco Giants")]),
      ("score", Json.num 4)]),
    ("home", Json.obj [
      ("team", Json.obj [("abbreviation", Json.str "LAD"),
                         ("name", Json.str "Los Angeles Dodgers")]),
      ("score", Json.num 1)])])]

/-- A live entry used to witness the amended exclusion rule. -/
def c2LiveGame : Json := Json.obj [
  ("status", Json.obj [("abstractGameCode", Json.str "L")]),
  ("teams", Json.obj [
    ("away", Json.obj [
      ("team", Json.obj [("abbreviation", Json.str "CHC"),
                         ("name", Json.str "Chicago Cubs")]),
      ("score", Json.num 0)]),
    ("home", Json.obj [
      ("team", Json.obj [("abbreviation", Json.str "STL"),
                         ("name", Json.str "St. Louis Cardinals")]),
      ("score", Json.num 0)])]),
  ("linescore", Json.obj [("currentInningOrdinal", Json.str "1st"),
                          ("inningHalf", Json.str "Top")])]

/-- Two match records for the source-resolver witness: the first has a
non-matching title, the second carries the sources we expect back. -/
def c3Other : Json := Json.obj [
  ("title", Json.str "Chicago Cubs vs St. Louis Cardinals"),
  ("sources", Json.arr [Json.obj [("id", Json.str "zzz"), ("source", Json.str "gamma")]])]

def c3Hit : Json := Json.obj [
  ("title", Json.str "Boston Red Sox vs New York Yankees"),
  ("sources", Json.arr [Json.obj [("id", Json.str "abc"), ("source", Json.str "alpha")],
                        Json.obj [("id", Json.str "def"), ("source", Json.str "beta")]])]

/-- A three-game list for the selection-parsing witness. -/
def c4Games : List Game :=
  [{ title := "g1", id := "i1" }, { title := "g2", id := "i2" }, { title := "g3", id := "i3" }]

/-- An entry with every optional field missing: no status, no scores, no
linescore — only the four required team fields. -/
def c7Game : Json := Json.obj [
  ("teams", Json.obj [
    ("away", Json.obj [
      ("team", Json.obj [("abbreviation", Json.str "SEA"),
                         ("name", Json.str "Seattle Mariners")])]),
    ("home", Json.obj [
      ("team", Json.obj [("abbreviation", Json.str "TEX"),
                         ("name", Json.str "Texas Rangers")])])])]

/-- A live entry whose home team name is absent: one required field is
missing, so the whole schedule operation must fail. -/
def c8Game : Json := Json.obj [
  ("status", Json.obj [("abstractGameCode", Json.str "L")]),
  ("teams", Json.obj [
    ("away", Json.obj [
      ("team", Json.obj [("abbreviation", Json.str "NYM"),
                         ("name", Json.str "New York Mets")]),
      ("score", Json.num 2)]),
    ("home", Json.obj [
      ("team", Json.obj [("abbreviation", Json.str "PHI")]),
      ("score", Json.num 5)])])]

/-- A complete, qualifying entry placed before `c8Game` in the same date,
showing that even already-processed entries are discarded on failure. -/
def c8GoodGame : Json := Json.obj [
  ("status", Json.obj [("abstractGameCode", Json.str "L")]),
  ("teams", Json.obj [
    ("away", Json.obj [
      ("team", Json.obj [("abbreviation", Json.str "ATL"),
                         ("name", Json.str "Atlanta Braves")]),
      ("score", Json.num 1)]),
    ("home", Json.obj [
      ("team", Json.obj [("abbreviation", Json.str "MIA"),
                         ("name", Json.str "Miami Marlins")]),
      ("score", Json.num 0)])])]

/-- A source descriptor and a network oracle for the stream-resolver
witness: fetching the URL built from the descriptor yields one stream. -/
def c9Source : Json :=
  Json.obj [("id", Json.str "abc"), ("source", Json.str "alpha")]

def c9Fetch : String → Json := fun url =>
  if url = "https://streamed.su/api/stream/alpha/abc" then
    Json.arr [Json.obj [("embedUrl", Json.str "https://embed.example/1")],
              Json.obj [("embedUrl", Json.str "https://embed.example/2")]]
  else Json.null

/-- A schedule oracle for the retry-policy witness: today is empty,
yesterday has one game. -/
def c6Fetch : String → Option (List Game) := fun date =>
  if date = "2026-10-12" then some []
  else if date = "2026-10-11" then some [{ title := "g", id := "i" }]
  else none

/-- An entry with no `status` object at all, otherwise complete. -/
def c10Game : Json := Json.obj [
  ("teams", Json.obj [
    ("away", Json.obj [
      ("team", Json.obj [("abbreviation", Json.str "HOU"),
                         ("name", Json.str "Houston Astros")]),
      ("score", Json.num 7)]),
    ("home", Json.obj [
      ("team", Json.obj [("abbreviation", Json.str "OAK"),
                         ("name", Json.str "Oakland Athletics")]),
      ("score", Json.num 6)])]),
  ("linescore", Json.obj [("currentInningOrdinal", Json.str "9th"),
                          ("inningHalf", Json.str "Bottom")])]

/-! ### Helper lemmas -/

/-- `buildGame` on an entry with all four required fields present. -/
theorem buildGame_eq_some (e : Json) (ha aa hn an : String)
    (h1 : homeAbbrOf e = some ha) (h2 : awayAbbrOf e = some aa)
    (h3 : homeNameOf e = some hn) (h4 : awayNameOf e = some an) :
    buildGame e = some
      { title := aa ++ " (" ++ toString (awayScoreOf e) ++ ") vs " ++
                 ha ++ " (" ++ toString (homeScoreOf e) ++ ") | " ++
                 (if inningHalfOf e = "Bottom" then "Bottom of" else "Top of") ++
                 " " ++ inningOf e,
        id := hn ++ " vs " ++ an } := by
  simp [buildGame, h1, h2, h3, h4]

/-- A successful `buildGame` determines the four required fields and the
shape of the resulting `Game`. -/
theorem buildGame_some_inv (e : Json) (g : Game) (h : buildGame e = some g) :
    ∃ ha aa hn an, homeAbbrOf e = some ha ∧ awayAbbrOf e = some aa ∧
      homeNameOf e = some hn ∧ awayNameOf e = some an ∧
      g = { title := aa ++ " (" ++ toString (awayScoreOf e) ++ ") vs " ++
                     ha ++ " (" ++ toString (homeScoreOf e) ++ ") | " ++
                     (if inningHalfOf e = "Bottom" then "Bottom of" else "Top of") ++
                     " " ++ inningOf e,
            id := hn ++ " vs " ++ an } := by
  cases h1 : homeAbbrOf e with
  | none => simp [buildGame, h1] at h
  | some ha =>
    cases h2 : awayAbbrOf e with
    | none => simp [buildGame, h1, h2] at h
    | some aa =>
      cases h3 : homeNameOf e with
      | none => simp [buildGame, h1, h2, h3] at h
      | some hn =>
        cases h4 : awayNameOf e with
        | none => simp [buildGame, h1, h2, h3, h4] at h
        | some an =>
          refine ⟨ha, aa, hn, an, rfl, rfl, rfl, rfl, ?_⟩
          rw [buildGame_eq_some e ha aa hn an h1 h2 h3 h4] at h
          exact (Option.some.inj h).symm

/-! ### C1: correlation key -/

/-- C1 counterexample: the schedule response of the end-to-end scenario in
the specification (away New York Yankees, home Boston Red Sox) yields the
correlation key "Boston Red Sox vs New York Yankees" — home full name
first — which differs from the away-first key the claim requires. -/
theorem correlation_key_counterexample :
    get_schedule c1Sched = some [c1ExpectedGame] ∧
    c1ExpectedGame.id = "Boston Red Sox vs New York Yankees" ∧
    "Boston Red Sox vs New York Yankees" ≠ "New York Yankees vs Boston Red Sox" := by
  refine ⟨by decide, rfl, by decide⟩

/-- C1 (amended): for every qualifying entry, the correlation key equals
"{home_full_name} vs {away_full_name}" — home full name first, then away
full name — and it depends only on the two team full-name fields, not on
scores or inning fields. -/
theorem correlation_key_amended (e : Json) (g : Game) (hn an : String)
    (hb : buildGame e = some g)
    (hh : homeNameOf e = some hn) (ha : awayNameOf e = some an) :
    g.id = hn ++ " vs " ++ an ∧
    ∀ e2 g2, buildGame e2 = some g2 → homeNameOf e2 = some hn →
      awayNameOf e2 = some an → g2.id = g.id := by
  obtain ⟨ha1, aa1, hn1, an1, _, _, h3, h4, rfl⟩ := buildGame_some_inv e g hb
  rw [h3] at hh
  rw [h4] at ha
  obtain rfl := Option.some.inj hh
  obtain rfl := Option.some.inj ha
  refine ⟨rfl, ?_⟩
  intro e2 g2 hb2 hh2 ha2
  obtain ⟨ha2', aa2, hn2, an2, _, _, h3', h4', rfl⟩ := buildGame_some_inv e2 g2 hb2
  rw [h3'] at hh2
  rw [h4'] at ha2
  obtain rfl := Option.some.inj hh2
  obtain rfl := Option.some.inj ha2
  rfl

/-- C1 witness: the amended key theorem applied to the scenario entry. -/
theorem correlation_key_amended_witness :
    c1ExpectedGame.id = "Boston Red Sox" ++ " vs " ++ "New York Yankees" ∧
    ∀ e2 g2, buildGame e2 = some g2 → homeNameOf e2 = some "Boston Red Sox" →
      awayNameOf e2 = some "New York Yankees" → g2.id = c1ExpectedGame.id :=
  correlation_key_amended c1Game c1ExpectedGame "Boston Red Sox" "New York Yankees"
    (by decide) (by decide) (by decide)

/-! ### C5: display title -/

/-- C5: for every qualifying entry the display title is exactly
"{away_abbr} ({away_score}) vs {home_abbr} ({home_score}) | {Top of or
Bottom of} {inning}", with "Bottom of" exactly when the inning half is
"Bottom" and "Top of" otherwise, and the title is a pure function of the
six extracted inputs: any two entries agreeing on them get identical
titles. -/
theorem title_format (e : Json) (g : Game) (aa ha : String)
    (hb : buildGame e = some g)
    (h2 : awayAbbrOf e = some aa) (h1 : homeAbbrOf e = some ha) :
    g.title = aa ++ " (" ++ toString (awayScoreOf e) ++ ") vs " ++
              ha ++ " (" ++ toString (homeScoreOf e) ++ ") | " ++
              (if inningHalfOf e = "Bottom" then "Bottom of" else "Top of") ++
              " " ++ inningOf e ∧
    ∀ e2 g2, buildGame e2 = some g2 →
      awayAbbrOf e2 = some aa → homeAbbrOf e2 = some ha →
      awayScoreOf e2 = awayScoreOf e → homeScoreOf e2 = homeScoreOf e →
      inningHalfOf e2 = inningHalfOf e → inningOf e2 = inningOf e →
      g2.title = g.title := by
  obtain ⟨ha1, aa1, hn1, an1, hh1, hh2, _, _, rfl⟩ := buildGame_some_inv e g hb
  rw [hh1] at h1
  rw [hh2] at h2
  obtain rfl := Option.some.inj h1
  obtain rfl := Option.some.inj h2
  refine ⟨rfl, ?_⟩
  intro e2 g2 hb2 hba hbh hsa hsh hih hio
  obtain ⟨ha2, aa2, hn2, an2, k1, k2, _, _, rfl⟩ := buildGame_some_inv e2 g2 hb2
  rw [k2] at hba
  rw [k1] at hbh
  obtain rfl := Option.some.inj hba
  obtain rfl := Option.some.inj hbh
  simp only [hsa, hsh, hih, hio]

/-- C5 witness: the title theorem applied to the scenario entry. -/
theorem title_format_witness :
    c1ExpectedGame.title = "NYY" ++ " (" ++ toString (awayScoreOf c1Game) ++ ") vs " ++
      "BOS" ++ " (" ++ toString (homeScoreOf c1Game) ++ ") | " ++
      (if inningHalfOf c1Game = "Bottom" then "Bottom of" else "Top of") ++
      " " ++ inningOf c1Game ∧
    ∀ e2 g2, buildGame e2 = some g2 →
      awayAbbrOf e2 = some "NYY" → homeAbbrOf e2 = some "BOS" →
      awayScoreOf e2 = awayScoreOf c1Game → homeScoreOf e2 = homeScoreOf c1Game →
      inningHalfOf e2 = inningHalfOf c1Game → inningOf e2 = inningOf c1Game →
      g2.title = c1ExpectedGame.title :=
  title_format c1Game c1ExpectedGame "NYY" "BOS" (by decide) (by decide) (by decide)

/-! ### Schedule-level lemmas -/

/-- A single-date schedule document reduces to filtering and building the
entries of that date. -/
theorem get_schedule_single (es : List Json) :
    get_schedule (mkSched [es]) = buildGames (es.filter keepGame) := by
  cases hb : buildGames (es.filter keepGame) with
  | none => simp [get_schedule, mkSched, mkDate, Json.get, lookupField, Json.asArray,
      processDates, processDate, hb]
  | some gs => simp [get_schedule, mkSched, mkDate, Json.get, lookupField, Json.asArray,
      processDates, processDate, hb]

/-- A successful `buildGames` run is the elementwise image of `buildGame`,
in order. -/
theorem buildGames_forall2 (l : List Json) (gs : List Game)
    (h : buildGames l = some gs) :
    List.Forall₂ (fun e g => buildGame e = some g) l gs := by
  induction l generalizing gs with
  | nil =>
    simp [buildGames] at h
    subst h
    exact List.Forall₂.nil
  | cons e rest ih =>
    cases hg : buildGame e with
    | none => simp [buildGames, hg] at h
    | some g =>
      cases hr : buildGames rest with
      | none => simp [buildGames, hg, hr] at h
      | some gs' =>
        simp [buildGames, hg, hr] at h
        subst h
        exact List.Forall₂.cons hg (ih gs' hr)

/-- One failing entry makes the whole `buildGames` run fail. -/
theorem buildGames_none_of_mem (l : List Json) (e : Json)
    (he : e ∈ l) (hn : buildGame e = none) :
    buildGames l = none := by
  induction l with
  | nil => cases he
  | cons x rest ih =>
    rcases List.mem_cons.mp he with rfl | hmem
    · simp [buildGames, hn]
    · cases hx : buildGame x with
      | none => simp [buildGames, hx]
      | some g => simp [buildGames, hx, ih hmem]

/-- One failing date makes the whole `processDates` run fail. -/
theorem processDates_none_of_mem (ds : List Json) (d : Json)
    (hd : d ∈ ds) (hn : processDate d = none) :
    processDates ds = none := by
  induction ds with
  | nil => cases hd
  | cons x rest ih =>
    rcases List.mem_cons.mp hd with rfl | hmem
    · simp [processDates, hn]
    · cases hx : processDate x with
      | none => simp [processDates, hx]
      | some gs => simp [processDates, hx, ih hmem]

/-! ### C2: exclusion rule -/

/-- C2 counterexample: an entry whose abstract game code is the literal
string "F" — which is neither "Final" nor "Preview", so the claim says it
must appear in the output — is skipped by the program: the returned
sequence is empty. -/
theorem exclusion_rule_counterexample :
    get_schedule (mkSched [[c2Game]]) = some [] ∧
    statusOf c2Game = "F" ∧
    ¬(statusOf c2Game = "Final" ∨ statusOf c2Game = "Preview") := by
  refine ⟨by decide, rfl, by decide⟩

/-- C2 (amended): the filter skips exactly those entries whose abstract
game code (read as a string, defaulting to "") is "F" or "P": an entry is
kept if and only if its code is neither of those two values, and a
successful run returns exactly the kept entries, built in order. -/
theorem exclusion_rule_amended (es : List Json) (gs : List Game)
    (h : get_schedule (mkSched [es]) = some gs) :
    (∀ e, keepGame e = true ↔ (statusOf e ≠ "F" ∧ statusOf e ≠ "P")) ∧
    List.Forall₂ (fun e g => buildGame e = some g) (es.filter keepGame) gs := by
  rw [get_schedule_single] at h
  refine ⟨fun e => ?_, buildGames_forall2 _ _ h⟩
  simp [keepGame]

/-- C2 witness: a schedule with one final and one live entry keeps exactly
the live one. -/
theorem exclusion_rule_amended_witness :
    (∀ e, keepGame e = true ↔ (statusOf e ≠ "F" ∧ statusOf e ≠ "P")) ∧
    List.Forall₂ (fun e g => buildGame e = some g)
      ([c2Game, c2LiveGame].filter keepGame)
      [{ title := "CHC (0) vs STL (0) | Top of 1st",
         id := "St. Louis Cardinals vs Chicago Cubs" }] :=
  exclusion_rule_amended [c2Game, c2LiveGame] _ (by decide)

/-! ### C7: optional-field defaults -/

/-- C7: for a qualifying entry whose four required fields are present,
extraction never fails — `buildGame` succeeds — and each optional field
falls back to its default: a score that does not read as a u64 (absent
fields read as Null) defaults to 0, an absent linescore object defaults
both inning fields, and an inning field of the linescore that is absent
or not a string defaults to "N/A" (ordinal) and "Top" (half). -/
theorem optional_field_defaults (e : Json) (ha aa hn an : String)
    (h1 : homeAbbrOf e = some ha) (h2 : awayAbbrOf e = some aa)
    (h3 : homeNameOf e = some hn) (h4 : awayNameOf e = some an) :
    (∃ g, buildGame e = some g) ∧
    ((((e.get "teams").get "home").get "score").asU64 = none → homeScoreOf e = 0) ∧
    ((((e.get "teams").get "away").get "score").asU64 = none → awayScoreOf e = 0) ∧
    ((e.get "linescore").asObj = none → inningOf e = "N/A" ∧ inningHalfOf e = "Top") ∧
    ((lookupField (linescoreOf e) "currentInningOrdinal").bind Json.asStr = none →
      inningOf e = "N/A") ∧
    ((lookupField (linescoreOf e) "inningHalf").bind Json.asStr = none →
      inningHalfOf e = "Top") := by
  refine ⟨⟨_, buildGame_eq_some e ha aa hn an h1 h2 h3 h4⟩, ?_, ?_, ?_, ?_, ?_⟩
  · intro h
    simp [homeScoreOf, h]
  · intro h
    simp [awayScoreOf, h]
  · intro h
    constructor
    · simp [inningOf, linescoreOf, h, lookupField]
    · simp [inningHalfOf, linescoreOf, h, lookupField]
  · intro h
    simp [inningOf, h]
  · intro h
    simp [inningHalfOf, h]

/-- C7 witness: an entry with no status, scores or linescore at all is
still built, with score 0, inning "N/A" and half "Top". -/
theorem optional_field_defaults_witness :
    (∃ g, buildGame c7Game = some g) ∧
    ((((c7Game.get "teams").get "home").get "score").asU64 = none →
      homeScoreOf c7Game = 0) ∧
    ((((c7Game.get "teams").get "away").get "score").asU64 = none →
      awayScoreOf c7Game = 0) ∧
    ((c7Game.get "linescore").asObj = none →
      inningOf c7Game = "N/A" ∧ inningHalfOf c7Game = "Top") ∧
    ((lookupField (linescoreOf c7Game) "currentInningOrdinal").bind Json.asStr = none →
      inningOf c7Game = "N/A") ∧
    ((lookupField (linescoreOf c7Game) "inningHalf").bind Json.asStr = none →
      inningHalfOf c7Game = "Top") :=
  optional_field_defaults c7Game "TEX" "SEA" "Texas Rangers" "Seattle Mariners"
    (by decide) (by decide) (by decide) (by decide)

/-! ### C8: required-field failure is total -/

/-- C8: if any qualifying entry of any date in the schedule document is
missing a required field (home or away abbreviation, home or away full
name), the whole `get_schedule` operation fails: the result is `none`,
never a partial list. -/
theorem required_field_failure (dss : List (List Json)) (ds : List Json) (e : Json)
    (hds : ds ∈ dss) (he : e ∈ ds) (hk : keepGame e = true)
    (hmiss : homeAbbrOf e = none ∨ awayAbbrOf e = none ∨
             homeNameOf e = none ∨ awayNameOf e = none) :
    get_schedule (mkSched dss) = none := by
  have hbg : buildGame e = none := by
    cases hb : buildGame e with
    | none => rfl
    | some g =>
      obtain ⟨ha, aa, hn, an, k1, k2, k3, k4, _⟩ := buildGame_some_inv e g hb
      rcases hmiss with h | h | h | h <;> simp_all
  have hfm : e ∈ ds.filter keepGame := List.mem_filter.mpr ⟨he, hk⟩
  have hpd : processDate (mkDate ds) = none := by
    simp [processDate, mkDate, Json.get, lookupField, Json.asArray,
      buildGames_none_of_mem (ds.filter keepGame) e hfm hbg]
  have hmem : mkDate ds ∈ dss.map mkDate := List.mem_map_of_mem mkDate hds
  simp [get_schedule, mkSched, Json.get, lookupField, Json.asArray,
    processDates_none_of_mem (dss.map mkDate) (mkDate ds) hmem hpd]

/-- C8 witness: a date whose second entry lacks the home team name makes
the whole operation fail even though its first entry is complete. -/
theorem required_field_failure_witness :
    get_schedule (mkSched [[c8GoodGame, c8Game]]) = none :=
  required_field_failure [[c8GoodGame, c8Game]] [c8GoodGame, c8Game] c8Game
    (List.mem_cons_self _ _) (List.mem_cons_of_mem _ (List.mem_cons_self _ _))
    (by decide) (Or.inr (Or.inr (Or.inl (by decide))))

/-! ### C10: absent status code passes the filter -/

/-- C10: an entry whose abstract game code is absent or not a string is
treated as having status "", passes the exclusion filter, and — when its
required fields build a `Game` — appears in the returned sequence rather
than being skipped or failing the run. -/
theorem missing_status_included (e : Json) (g : Game)
    (hs : ((e.get "status").get "abstractGameCode").asStr = none)
    (hb : buildGame e = some g) :
    statusOf e = "" ∧ keepGame e = true ∧
    get_schedule (mkSched [[e]]) = some [g] := by
  have hst : statusOf e = "" := by simp [statusOf, hs]
  have hkeep : keepGame e = true := by simp [keepGame, hst]
  refine ⟨hst, hkeep, ?_⟩
  rw [get_schedule_single]
  simp [List.filter, hkeep, buildGames, hb]

/-- C10 witness: an entry with no `status` object at all is included. -/
theorem missing_status_included_witness :
    statusOf c10Game = "" ∧ keepGame c10Game = true ∧
    get_schedule (mkSched [[c10Game]]) =
      some [{ title := "HOU (7) vs OAK (6) | Bottom of 9th",
              id := "Oakland Athletics vs Houston Astros" }] :=
  missing_status_included c10Game _ (by decide) (by decide)

/-! ### C3: source resolution -/

/-- The loop returns the empty list when no title equals the key. -/
theorem findSources_no_match (key : String) (ms : List Json)
    (hall : ∀ x ∈ ms, ∃ t, titleOf x = some t ∧ t ≠ key) :
    findSources key ms = some [] := by
  induction ms with
  | nil => rfl
  | cons x rest ih =>
    obtain ⟨t, ht, hne⟩ := hall x (List.mem_cons_self _ _)
    simp only [findSources, ht, if_neg hne]
    exact ih fun y hy => hall y (List.mem_cons_of_mem _ hy)

/-- The loop stops at the first record whose title equals the key and
returns its sources. -/
theorem findSources_first (key : String) (pre post : List Json) (m : Json)
    (srcs : List Json)
    (hpre : ∀ x ∈ pre, ∃ t, titleOf x = some t ∧ t ≠ key)
    (hm : titleOf m = some key) (hs : sourcesOf m = some srcs) :
    findSources key (pre ++ m :: post) = some srcs := by
  induction pre with
  | nil => simp [findSources, hm, hs]
  | cons x rest ih =>
    obtain ⟨t, ht, hne⟩ := hpre x (List.mem_cons_self _ _)
    simp only [List.cons_append, findSources, ht, if_neg hne]
    exact ih fun y hy => hpre y (List.mem_cons_of_mem _ hy)

/-- C3: the resolver scans the matches array linearly: against an array
with no exactly-equal title it succeeds with the empty list, and against
an array whose first exactly-matching record is `m` it returns the
sources of `m`, ignoring everything after it. -/
theorem source_resolution (key : String) (ms pre post : List Json) (m : Json)
    (srcs : List Json)
    (hall : ∀ x ∈ ms, ∃ t, titleOf x = some t ∧ t ≠ key)
    (hpre : ∀ x ∈ pre, ∃ t, titleOf x = some t ∧ t ≠ key)
    (hm : titleOf m = some key) (hs : sourcesOf m = some srcs) :
    get_sources key (Json.arr ms) = some [] ∧
    get_sources key (Json.arr (pre ++ m :: post)) = some srcs := by
  constructor
  · simp [get_sources, Json.asArray, findSources_no_match key ms hall]
  · simp [get_sources, Json.asArray, findSources_first key pre post m srcs hpre hm hs]

/-- C3 witness: a miss on a one-record array gives `some []`, and the key
of the scenario game resolves past one non-matching record to the two
sources of the matching record. -/
theorem source_resolution_witness :
    get_sources "Boston Red Sox vs New York Yankees" (Json.arr [c3Other]) = some [] ∧
    get_sources "Boston Red Sox vs New York Yankees"
        (Json.arr ([c3Other] ++ c3Hit :: [])) =
      some [Json.obj [("id", Json.str "abc"), ("source", Json.str "alpha")],
            Json.obj [("id", Json.str "def"), ("source", Json.str "beta")]] :=
  source_resolution "Boston Red Sox vs New York Yankees" [c3Other] [c3Other] [] c3Hit _
    (fun x hx => by
      rcases List.mem_singleton.mp hx with rfl
      exact ⟨_, rfl, by decide⟩)
    (fun x hx => by
      rcases List.mem_singleton.mp hx with rfl
      exact ⟨_, rfl, by decide⟩)
    rfl rfl

/-! ### C9: stream resolution -/

/-- Elementwise description of the per-source loop. -/
theorem streamsOfSources_of_forall2 (fetch : String → Json) (sources : List Json)
    (lss : List (List String))
    (h : List.Forall₂ (fun s ls => streamsOfSource fetch s = some ls) sources lss) :
    streamsOfSources fetch sources = some lss.flatten := by
  induction h with
  | nil => rfl
  | cons hsl _ ih =>
    simp only [streamsOfSources, hsl, ih, Option.bind_some, List.flatten]
    rfl

/-- C9: on a successful run the printed lines are the three header lines
followed by every embed URL, source by source in input order and within a
source in response order; each source is resolved by fetching the URL
built from its source type and id; and an empty descriptor sequence
prints the header lines only, without error. -/
theorem stream_resolution (fetch : String → Json) (sources : List Json)
    (lss : List (List String))
    (h : List.Forall₂ (fun s ls => streamsOfSource fetch s = some ls) sources lss) :
    get_streams fetch sources = some (["", "Streams: ", ""] ++ lss.flatten) ∧
    (∀ s sid sty, (s.get "id").asStr = some sid → (s.get "source").asStr = some sty →
      streamsOfSource fetch s = ((fetch (streamUrl sty sid)).asArray).bind embedUrls) ∧
    get_streams fetch [] = some ["", "Streams: ", ""] := by
  refine ⟨?_, ?_, ?_⟩
  · simp [get_streams, streamsOfSources_of_forall2 fetch sources lss h]
  · intro s sid sty hid hty
    simp [streamsOfSource, hid, hty]
  · simp [get_streams, streamsOfSources]

/-- C9 witness: one descriptor resolving to two embed URLs. -/
theorem stream_resolution_witness :
    get_streams c9Fetch [c9Source] =
      some (["", "Streams: ", ""] ++
        [["https://embed.example/1", "https://embed.example/2"]].flatten) ∧
    (∀ s sid sty, (s.get "id").asStr = some sid → (s.get "source").asStr = some sty →
      streamsOfSource c9Fetch s =
        ((c9Fetch (streamUrl sty sid)).asArray).bind embedUrls) ∧
    get_streams c9Fetch [] = some ["", "Streams: ", ""] :=
  stream_resolution c9Fetch [c9Source]
    [["https://embed.example/1", "https://embed.example/2"]]
    (List.Forall₂.cons (by decide) List.Forall₂.nil)

/-! ### C6: today-then-yesterday retry -/

/-- C6: if fetching today yields zero games the caller fetches exactly
once more, with yesterday, and presents that result; if today yields at
least one game there is no second fetch and that list is presented. The
pair component records the dates fetched, in order. -/
theorem schedule_retry (fetch : String → Option (List Game)) (today yesterday : String) :
    (fetch today = some [] →
      main_games fetch today yesterday = (fetch yesterday, [today, yesterday])) ∧
    (∀ gs, fetch today = some gs → gs ≠ [] →
      main_games fetch today yesterday = (some gs, [today])) := by
  constructor
  · intro h
    simp [main_games, h]
  · intro gs h hne
    simp [main_games, h, List.length_eq_zero, hne]

/-- C6 witness: an empty today falls back to the one-game yesterday. -/
theorem schedule_retry_witness :
    main_games c6Fetch "2026-10-12" "2026-10-11" =
      (some [{ title := "g", id := "i" }], ["2026-10-12", "2026-10-11"]) :=
  ((schedule_retry c6Fetch "2026-10-12" "2026-10-11").1 (by decide)).trans (by decide)

/-! ### C4: selection parsing -/

/-- Facts about a single decimal digit character. -/
theorem digit_char_props (r : Nat) (h : r < 10) :
    (Char.ofNat (r + 48)).isDigit = true ∧
    (Char.ofNat (r + 48)).isWhitespace = false ∧
    (Char.ofNat (r + 48)).toNat = r + 48 ∧
    Char.ofNat (r + 48) ≠ '-' ∧ Char.ofNat (r + 48) ≠ '+' := by
  interval_cases r <;> exact ⟨by decide, by decide, by decide, by decide, by decide⟩

/-- Every character of `decDigits n` is a digit, not whitespace, and not a
sign. -/
theorem decDigits_props (n : Nat) :
    ∀ c ∈ decDigits n, c.isDigit = true ∧ c.isWhitespace = false ∧
      c ≠ '-' ∧ c ≠ '+' := by
  induction n using decDigits.induct with
  | case1 => intro c hc; rw [decDigits] at hc; cases hc
  | case2 n ih =>
    intro c hc
    rw [decDigits] at hc
    rcases List.mem_append.mp hc with h | h
    · exact ih c h
    · rcases List.mem_singleton.mp h with rfl
      obtain ⟨p1, p2, _, p4, p5⟩ := digit_char_props ((n + 1) % 10) (Nat.mod_lt _ (by omega))
      exact ⟨p1, p2, p4, p5⟩

/-- `decDigits` of a positive number is nonempty. -/
theorem decDigits_ne_nil (n : Nat) (h : 0 < n) : decDigits n ≠ [] := by
  cases n with
  | zero => omega
  | succ n => rw [decDigits]; simp

/-- `digitsVal` inverts `decDigits`. -/
theorem decDigits_val (n : Nat) : digitsVal (decDigits n) = n := by
  induction n using decDigits.induct with
  | case1 => rw [decDigits]; rfl
  | case2 n ih =>
    rw [decDigits]
    unfold digitsVal at ih ⊢
    rw [List.foldl_append]
    simp only [List.foldl_cons, List.foldl_nil]
    rw [ih, (digit_char_props ((n + 1) % 10) (Nat.mod_lt _ (by omega))).2.2.1]
    omega

/-- The character list underlying `decRep n`. -/
theorem decRep_data (n : Nat) :
    (decRep n).data = if n = 0 then ['0'] else decDigits n := by
  by_cases h : n = 0
  · subst h; rfl
  · rw [if_neg h, decRep, if_neg h]

/-- Every character of `decRep n` is a digit, not whitespace, not a sign. -/
theorem decRep_props (n : Nat) :
    ∀ c ∈ (decRep n).data, c.isDigit = true ∧ c.isWhitespace = false ∧
      c ≠ '-' ∧ c ≠ '+' := by
  intro c hc
  rw [decRep_data] at hc
  by_cases h : n = 0
  · rw [if_pos h] at hc
    rcases List.mem_singleton.mp hc with rfl
    exact ⟨by decide, by decide, by decide, by decide⟩
  · rw [if_neg h] at hc
    exact decDigits_props n c hc

/-- `decRep n` is nonempty. -/
theorem decRep_data_ne_nil (n : Nat) : (decRep n).data ≠ [] := by
  rw [decRep_data]
  by_cases h : n = 0
  · rw [if_pos h]; simp
  · rw [if_neg h]; exact decDigits_ne_nil n (Nat.pos_of_ne_zero h)

/-- The decimal value of `decRep n` is `n`. -/
theorem decRep_val (n : Nat) : digitsVal (decRep n).data = n := by
  rw [decRep_data]
  by_cases h : n = 0
  · rw [if_pos h, h]; rfl
  · rw [if_neg h]; exact decDigits_val n

/-- Dropping by a predicate no character satisfies is the identity. -/
theorem dropWhile_eq_of_none {p : Char → Bool} (l : List Char)
    (h : ∀ c ∈ l, p c = false) : l.dropWhile p = l := by
  cases l with
  | nil => rfl
  | cons a as => rw [List.dropWhile_cons, h a (List.mem_cons_self _ _)]; simp

/-- Trimming a pure-digit string changes nothing. -/
theorem rustTrim_decRep (n : Nat) : rustTrim (decRep n) = decRep n := by
  unfold rustTrim
  rw [dropWhile_eq_of_none _ (fun c hc => (decRep_props n c hc).2.1)]
  rw [dropWhile_eq_of_none _ (fun c hc =>
    (decRep_props n c (List.mem_reverse.mp hc)).2.1)]
  rw [List.reverse_reverse]

/-- `parseI32` accepts the canonical decimal string of `n` exactly when
`n` fits in an i32, and then yields `n`. -/
theorem parseI32_decRep (n : Nat) :
    parseI32 (decRep n) =
      if (n : Int) ≤ 2 ^ 31 - 1 then some (n : Int) else none := by
  obtain ⟨c, rest, hcons⟩ : ∃ c rest, (decRep n).data = c :: rest := by
    cases hd : (decRep n).data with
    | nil => exact absurd hd (decRep_data_ne_nil n)
    | cons c rest => exact ⟨c, rest, rfl⟩
  have hc := decRep_props n c (by rw [hcons]; exact List.mem_cons_self _ _)
  have hhead : (decRep n).data.head? = some c := by rw [hcons]; rfl
  have hne : (decRep n).data ≠ [] := decRep_data_ne_nil n
  have hall : (decRep n).data.all Char.isDigit = true :=
    List.all_eq_true.mpr fun x hx => (decRep_props n x hx).1
  have hm : ¬(decRep n).data.head? = some '-' := by
    rw [hhead]
    simp only [Option.some.injEq]
    exact hc.2.2.1
  have hp : ¬(decRep n).data.head? = some '+' := by
    rw [hhead]
    simp only [Option.some.injEq]
    exact hc.2.2.2
  simp only [parseI32]
  rw [if_neg hm, if_neg (not_or.mpr ⟨hm, hp⟩), if_pos ⟨hne, hall⟩, one_mul, decRep_val n]
  by_cases hb : (n : Int) ≤ 2 ^ 31 - 1
  · rw [if_pos ⟨le_trans (by norm_num) (Int.natCast_nonneg n), hb⟩, if_pos hb]
  · rw [if_neg (fun hcon => hb hcon.2), if_neg hb]

/-- `games.len() as i32` is the length itself for realistic lengths. -/
theorem lenAsI32_of_lt (n : Nat) (h : n < 2 ^ 31) : lenAsI32 n = (n : Int) := by
  unfold lenAsI32
  rw [Nat.mod_eq_of_lt (lt_trans h (by norm_num))]
  rw [if_pos h]

/-- C4: with N displayed games (any realistic N below 2^31), the inputs
"0", "-1", "abc" and "" are rejected, the decimal string of any integer
above N is rejected, and the decimal string of any k with 1 ≤ k ≤ N
selects the game at zero-based index k - 1, that is, the k-th game of the
1-based list. -/
theorem selection_parsing (games : List Game) (k m : Nat)
    (hN : games.length < 2 ^ 31) :
    select_game games "0" = none ∧
    select_game games "-1" = none ∧
    select_game games "abc" = none ∧
    select_game games "" = none ∧
    (games.length < m → select_game games (decRep m) = none) ∧
    (1 ≤ k → k ≤ games.length → select_game games (decRep k) = some (k - 1)) := by
  have hlen := lenAsI32_of_lt games.length hN
  refine ⟨?_, ?_, ?_, ?_, ?_, ?_⟩
  · simp only [select_game, show parseI32 (rustTrim "0") = some 0 from rfl]
    norm_num
  · simp only [select_game, show parseI32 (rustTrim "-1") = some (-1) from rfl]
    norm_num
  · simp only [select_game, show parseI32 (rustTrim "abc") = none from rfl]
  · simp only [select_game, show parseI32 (rustTrim "") = none from rfl]
  · intro hlt
    by_cases hb : (m : Int) ≤ 2 ^ 31 - 1
    · have hcond : ¬(0 < (m : Int) ∧ (m : Int) ≤ lenAsI32 games.length) := by
        rw [hlen]
        rintro ⟨-, hle⟩
        have : m ≤ games.length := by exact_mod_cast hle
        omega
      simp only [select_game, rustTrim_decRep, parseI32_decRep, if_pos hb, if_neg hcond]
    · simp only [select_game, rustTrim_decRep, parseI32_decRep, if_neg hb]
  · intro h1 h2
    have hb : (k : Int) ≤ 2 ^ 31 - 1 := by
      have : (k : Int) < 2 ^ 31 := by exact_mod_cast lt_of_le_of_lt h2 hN
      omega
    have hcond : 0 < (k : Int) ∧ (k : Int) ≤ lenAsI32 games.length := by
      rw [hlen]
      constructor
      · exact_mod_cast h1
      · exact_mod_cast h2
    simp only [select_game, rustTrim_decRep, parseI32_decRep, if_pos hb, if_pos hcond]
    congr 1
    omega

/-- C4 witness: with the three-game list, the rejecting inputs are
rejected and input 2 selects index 1. -/
theorem selection_parsing_witness :
    select_game c4Games "0" = none ∧
    select_game c4Games "-1" = none ∧
    select_game c4Games "abc" = none ∧
    select_game c4Games "" = none ∧
    (c4Games.length < 5 → select_game c4Games (decRep 5) = none) ∧
    (1 ≤ 2 → 2 ≤ c4Games.length → select_game c4Games (decRep 2) = some (2 - 1)) :=
  selection_parsing c4Games 2 5 (by decide)
